import Mathlib

/-!
Verification of the asynchronous CV/project evaluation backend.

This file gives a shallow embedding, in Lean, of the program parts the
verified properties talk about:

* `RetryUtil.executeWithRetry` and `RetryUtil.isRetryableError`
  (src/utils/retry.util.ts);
* the text chunker `chunkText` of `DocumentProcessorService`
  (src/services/document-processor.service.ts);
* the stage-payload clamping of `EvaluationWorker.processStageS1/S2`
  (src/workers/evaluation-worker.ts);
* the evaluation worker's job state machine (`processEvaluation`,
  `updateJobStatus` in both its dependency-injected and its legacy form,
  `processStageS1/S2/S3`);
* the document ingestion pipeline (`processDocument`, `updateDocument`,
  `generateEmbeddings` in both its dependency-injected and its legacy
  form, `generateDeterministicEmbedding`) together with the vector-store
  client's `upsertPoints`, `deletePoints` and `convertFilterForQdrant`
  (src/services/vector-db.service.ts).

External collaborators (filesystem, pdf parser, OpenAI client, Qdrant,
the relational store) are modelled as oracle functions passed in an
environment record; database reads and writes are modelled as reliable
(pure) operations on an explicit state record, with the transactional
boundaries of the source made explicit: relational writes inside a
transaction take effect only at the commit point, vector-store writes
take effect immediately.  JavaScript numbers in score payloads and
embedding vectors are modelled as rationals; JavaScript strings as Lean
strings.
-/

/-! ## JavaScript-side basics -/

/-- Model of a JavaScript `Error`-like value as the retry utility
inspects it: an optional `code` (Node network errors), an optional
numeric `status` (HTTP provider errors) and an optional `message`. -/
structure JSError where
  code : Option String
  status : Option Nat
  message : Option String
deriving DecidableEq

/-- Check whether `pat` occurs in `cs` starting at the first position. -/
def charsStartWith : List Char → List Char → Bool
  | _, [] => true
  | [], _ :: _ => false
  | c :: cs, p :: ps => c == p && charsStartWith cs ps

/-- Check whether `pat` occurs anywhere in `cs` (substring search). -/
def charsContain : List Char → List Char → Bool
  | [], pat => charsStartWith [] pat
  | c :: cs, pat => charsStartWith (c :: cs) pat || charsContain cs pat

/-- Model of JavaScript `String.prototype.includes`. -/
def strIncludes (s pat : String) : Bool :=
  charsContain s.data pat.data

/-- Model of the optional-chained `error.message?.includes(pat)`:
`false` when the message is absent. -/
def optIncludes (m : Option String) (pat : String) : Bool :=
  match m with
  | some s => strIncludes s pat
  | none => false

/-- JavaScript `error.message` as used in a template string: prints
`undefined` when the field is absent. -/
def jsErrMessage (e : JSError) : String :=
  match e.message with
  | some s => s
  | none => "undefined"

/-! ## Retry utility (src/utils/retry.util.ts) -/

/-- `RetryUtil.isRetryableError`, clause for clause: network error
codes, timeouts, OpenAI 429/500/502/503 statuses, rate-limit or quota
messages, connection/network-phrased messages, and the (redundant)
Qdrant connection/timeout clause. -/
def isRetryableError (e : JSError) : Bool :=
  if e.code == some "ECONNRESET" || e.code == some "ENOTFOUND"
      || e.code == some "ECONNREFUSED" then true
  else if e.code == some "ETIMEDOUT" || optIncludes e.message "timeout" then true
  else if e.status == some 429 || e.status == some 500 || e.status == some 502
      || e.status == some 503 then true
  else if optIncludes e.message "rate limit" || optIncludes e.message "quota" then true
  else if optIncludes e.message "connection" || optIncludes e.message "network" then true
  else if optIncludes e.message "connection" || optIncludes e.message "timeout" then true
  else false

/-- The `for (attempt = 1; attempt <= maxAttempts; attempt++)` loop of
`RetryUtil.executeWithRetry`.  The operation is modelled as a function
from the (1-based) attempt number to that invocation's outcome.  The
returned pair is the overall outcome together with the number of times
the operation was invoked.  On success the loop returns; on failure it
breaks (and afterwards throws the last error) when the attempt budget is
used up or the error is not retryable, and otherwise sleeps and retries.
The delay computation (`baseDelay`, `maxDelay`, `backoffMultiplier`)
only affects timing, not the result, and is omitted. -/
def retryGo {T : Type} (op : Nat → Except JSError T) (maxAttempts : Nat)
    (operationName : String) (attempt : Nat) : Except JSError T × Nat :=
  if h : attempt ≤ maxAttempts then
    match op attempt with
    | .ok v => (.ok v, attempt)
    | .error e =>
      if attempt = maxAttempts then (.error e, attempt)
      else if isRetryableError e then retryGo op maxAttempts operationName (attempt + 1)
      else (.error e, attempt)
  else
    -- loop body never ran (`maxAttempts = 0`): `lastError` is null and
    -- the source throws `new Error(...)` with a synthesized message
    (.error ⟨none, none,
      some (operationName ++ " failed after " ++ toString maxAttempts ++ " attempts")⟩,
      attempt - 1)
termination_by maxAttempts + 1 - attempt
decreasing_by omega

/-- `RetryUtil.executeWithRetry(operation, options)`: runs the operation
up to `maxAttempts` times starting at attempt 1.  Result as in
`retryGo`: the outcome paired with the number of invocations made. -/
def executeWithRetry {T : Type} (op : Nat → Except JSError T) (maxAttempts : Nat)
    (operationName : String) : Except JSError T × Nat :=
  retryGo op maxAttempts operationName 1

/-- Helper for the retry bound: if every attempt from `attempt` to `m`
fails with a retryable error, the loop runs to attempt `m` and returns
that last attempt's error, having invoked the operation `m` times. -/
theorem retryGo_exhaust {T : Type} (op : Nat → Except JSError T) (m : Nat)
    (name : String) (e : JSError) (he : op m = .error e) :
    ∀ n attempt, attempt ≤ m → m - attempt = n →
    (∀ i, attempt ≤ i → i ≤ m → ∃ e', op i = .error e' ∧ isRetryableError e' = true) →
    retryGo op m name attempt = (.error e, m) := by
  intro n
  induction n with
  | zero =>
    intro attempt h1 h2 _
    have hm : attempt = m := by omega
    subst hm
    rw [retryGo, dif_pos h1, he]
    simp
  | succ n ih =>
    intro attempt h1 h2 hall
    have hlt : attempt < m := by omega
    obtain ⟨e', he', hr'⟩ := hall attempt le_rfl (by omega)
    rw [retryGo, dif_pos h1, he']
    simp only [hr', if_true]
    rw [if_neg (by omega)]
    exact ih (attempt + 1) (by omega) (by omega) (fun i hi1 hi2 => hall i (by omega) hi2)

/-- C6: if the operation fails on every invocation with a retryable
error, `executeWithRetry` invokes it exactly `maxAttempts` times, never
more, and the error finally raised is the error from the last
attempt. -/
theorem executeWithRetry_retryable_exhausts_attempts {T : Type}
    (op : Nat → Except JSError T) (maxAttempts : Nat) (operationName : String)
    (hpos : 1 ≤ maxAttempts)
    (hfail : ∀ i, 1 ≤ i → i ≤ maxAttempts →
      ∃ e, op i = .error e ∧ isRetryableError e = true) :
    ∃ e, op maxAttempts = .error e ∧
      executeWithRetry op maxAttempts operationName = (.error e, maxAttempts) := by
  obtain ⟨e, he, -⟩ := hfail maxAttempts hpos le_rfl
  exact ⟨e, he, retryGo_exhaust op maxAttempts operationName e he
    (maxAttempts - 1) 1 hpos (by omega) hfail⟩

/-- Witness for C6: an operation that always fails with a timeout error
is invoked exactly 3 times under `maxAttempts = 3` and the raised error
is the last attempt's error. -/
theorem executeWithRetry_retryable_exhausts_attempts_witness :
    (1 ≤ 3 ∧ ∀ i, 1 ≤ i → i ≤ 3 →
      ∃ e, (fun _ : Nat => (Except.error ⟨none, none, some "timeout"⟩ : Except JSError Nat)) i
            = .error e ∧ isRetryableError e = true) ∧
    ∃ e, (fun _ : Nat => (Except.error ⟨none, none, some "timeout"⟩ : Except JSError Nat)) 3
          = .error e ∧
      executeWithRetry (fun _ : Nat => (Except.error ⟨none, none, some "timeout"⟩ : Except JSError Nat)) 3 "op"
        = (.error e, 3) :=
  ⟨⟨by decide, fun _ _ _ => ⟨⟨none, none, some "timeout"⟩, rfl, by decide⟩⟩,
    executeWithRetry_retryable_exhausts_attempts _ 3 "op" (by decide)
      (fun _ _ _ => ⟨⟨none, none, some "timeout"⟩, rfl, by decide⟩)⟩

/-- C7: if the operation fails with a non-retryable (terminal) error on
its first invocation, `executeWithRetry` invokes it exactly once,
regardless of `maxAttempts`, and re-raises that error. -/
theorem executeWithRetry_terminal_single_invocation {T : Type}
    (op : Nat → Except JSError T) (maxAttempts : Nat) (operationName : String)
    (e : JSError) (hpos : 1 ≤ maxAttempts)
    (h1 : op 1 = .error e) (hterm : isRetryableError e = false) :
    executeWithRetry op maxAttempts operationName = (.error e, 1) := by
  unfold executeWithRetry
  rw [retryGo, dif_pos hpos, h1]
  by_cases hm : 1 = maxAttempts
  · simp [hm]
  · simp [hm, hterm]

/-- Witness for C7: an operation failing with a non-retryable HTTP 400
error is invoked exactly once even under `maxAttempts = 5`. -/
theorem executeWithRetry_terminal_single_invocation_witness :
    (1 ≤ 5 ∧ (fun _ : Nat => (Except.error ⟨none, some 400, none⟩ : Except JSError Nat)) 1
        = .error ⟨none, some 400, none⟩ ∧
      isRetryableError ⟨none, some 400, none⟩ = false) ∧
    executeWithRetry (fun _ : Nat => (Except.error ⟨none, some 400, none⟩ : Except JSError Nat)) 5 "op"
      = (.error ⟨none, some 400, none⟩, 1) :=
  ⟨⟨by decide, rfl, by decide⟩,
    executeWithRetry_terminal_single_invocation _ 5 "op" _ (by decide) rfl (by decide)⟩

/-! ## Text chunking (DocumentProcessorService.chunkText) -/

/-- Characters of a JavaScript `String.prototype.trim`: leading and
trailing whitespace removed. -/
def trimChars (cs : List Char) : List Char :=
  ((cs.dropWhile Char.isWhitespace).reverse.dropWhile Char.isWhitespace).reverse

/-- Model of JavaScript `String.prototype.trim`. -/
def jsTrim (s : String) : String :=
  ⟨trimChars s.data⟩

/-- Model of JavaScript `Array.prototype.join(' ')`. -/
def jsJoin : List String → String
  | [] => ""
  | [w] => w
  | w :: w2 :: ws => w ++ " " ++ jsJoin (w2 :: ws)

/-- A word token as produced inside a `text.split(/\s+/)` result:
nonempty and containing no whitespace. -/
def isWordToken (w : String) : Bool :=
  !w.data.isEmpty && w.data.all (fun c => !c.isWhitespace)

/-- Worker loop of `jsSplitWs`: accumulates the current word (reversed
in `cur`); on a whitespace character it emits the current word and sets
the `skipping` flag so that the rest of the whitespace run is consumed
without emitting further words, mirroring splitting on the regex
`/\s+/`. -/
def jsSplitWsGo : List Char → List Char → Bool → List String
  | [], cur, _ => [⟨cur.reverse⟩]
  | c :: rest, cur, skipping =>
    if c.isWhitespace then
      if skipping then jsSplitWsGo rest [] true
      else ⟨cur.reverse⟩ :: jsSplitWsGo rest [] true
    else jsSplitWsGo rest (c :: cur) false

/-- Model of JavaScript `text.split(/\s+/)` (so a leading or trailing
whitespace run contributes an empty-string element, as in JS). -/
def jsSplitWs (s : String) : List String :=
  jsSplitWsGo s.data [] false

/-- The `for (let i = 0; i < words.length; i += chunkSize - overlap)`
loop of `DocumentProcessorService.chunkText`, operating on the word
array: each round takes `words.slice(i, i + chunkSize)`, joins it with
single spaces, and pushes the trimmed join when it is nonempty.  The
recursion is driven by a fuel argument so the definition is structural
(and therefore kernel-evaluable); `chunkWords` supplies fuel
`words.length + 1`, which is enough for every positive stride, and the
`0 < step` guard makes the (source-divergent) degenerate configuration
`chunkSize ≤ overlap` return instead of looping.  All call sites use
`step = 448`. -/
def chunkWordsGo (words : List String) (chunkSize step : Nat) :
    Nat → Nat → List String
  | 0, _ => []
  | fuel + 1, i =>
    if 0 < step ∧ i < words.length then
      if (jsTrim (jsJoin ((words.drop i).take chunkSize))).data.isEmpty then
        chunkWordsGo words chunkSize step fuel (i + step)
      else
        jsTrim (jsJoin ((words.drop i).take chunkSize))
          :: chunkWordsGo words chunkSize step fuel (i + step)
    else []

/-- `chunkText`'s loop on an already-split word array. -/
def chunkWords (words : List String) (chunkSize overlap : Nat) : List String :=
  chunkWordsGo words chunkSize (chunkSize - overlap) (words.length + 1) 0

/-- `DocumentProcessorService.chunkText(text, chunkSize, overlap)`:
split on whitespace, then window with stride `chunkSize - overlap`. -/
def chunkText (text : String) (chunkSize overlap : Nat) : List String :=
  chunkWords (jsSplitWs text) chunkSize overlap

/-- The token range `[i, min (i + chunkSize) N)` covered by the chunk
the loop builds at index `i` (the indices of `words.slice(i, i +
chunkSize)` in a word array of length `N`), iterated with the same
stride and fuel discipline as `chunkWordsGo`. -/
def chunkRangesGo (N chunkSize step : Nat) : Nat → Nat → List (Nat × Nat)
  | 0, _ => []
  | fuel + 1, i =>
    if 0 < step ∧ i < N then
      (i, min (i + chunkSize) N) :: chunkRangesGo N chunkSize step fuel (i + step)
    else []

/-- Token ranges of all chunks produced for a word array of length `N`. -/
def chunkRanges (N chunkSize overlap : Nat) : List (Nat × Nat) :=
  chunkRangesGo N chunkSize (chunkSize - overlap) (N + 1) 0

/-- Appending strings appends their character lists. -/
theorem jsData_append (s t : String) : (s ++ t).data = s.data ++ t.data := by
  cases s
  cases t
  rfl

/-- A word token has a non-whitespace character. -/
theorem isWordToken_has_nonws {w : String} (h : isWordToken w = true) :
    ∃ c ∈ w.data, c.isWhitespace = false := by
  unfold isWordToken at h
  rw [Bool.and_eq_true] at h
  obtain ⟨h1, h2⟩ := h
  rw [List.all_eq_true] at h2
  cases hw : w.data with
  | nil => rw [hw] at h1; simp at h1
  | cons c cs =>
    refine ⟨c, List.mem_cons_self c cs, ?_⟩
    have := h2 c (by rw [hw]; exact List.mem_cons_self c cs)
    simp at this
    exact this

/-- The space-join of a nonempty list of word tokens contains a
non-whitespace character. -/
theorem jsJoin_has_nonws {ws : List String} (hne : ws ≠ [])
    (htok : ∀ w ∈ ws, isWordToken w = true) :
    ∃ c ∈ (jsJoin ws).data, c.isWhitespace = false := by
  match ws with
  | [] => exact absurd rfl hne
  | [w] =>
    have := isWordToken_has_nonws (htok w (List.mem_cons_self w []))
    simpa [jsJoin] using this
  | w :: w2 :: rest =>
    obtain ⟨c, hc, hcw⟩ := isWordToken_has_nonws (htok w (List.mem_cons_self w _))
    refine ⟨c, ?_, hcw⟩
    show c ∈ (jsJoin (w :: w2 :: rest)).data
    rw [jsJoin, jsData_append, jsData_append]
    exact List.mem_append.mpr (Or.inl (List.mem_append.mpr (Or.inl hc)))

/-- A non-whitespace member of a list survives `dropWhile isWhitespace`. -/
theorem mem_dropWhile_of_nonws {c : Char} {cs : List Char}
    (hc : c ∈ cs) (hw : c.isWhitespace = false) :
    c ∈ cs.dropWhile Char.isWhitespace := by
  have hsplit := List.takeWhile_append_dropWhile (p := Char.isWhitespace) (l := cs)
  rw [← hsplit] at hc
  rcases List.mem_append.mp hc with h | h
  · have := List.mem_takeWhile_imp h
    rw [hw] at this
    exact absurd this (by simp)
  · exact h

/-- A character list containing a non-whitespace character does not trim
to the empty list. -/
theorem trimChars_ne_nil {cs : List Char}
    (h : ∃ c ∈ cs, c.isWhitespace = false) : trimChars cs ≠ [] := by
  obtain ⟨c, hc, hw⟩ := h
  intro hnil
  unfold trimChars at hnil
  rw [List.reverse_eq_nil_iff, List.dropWhile_eq_nil_iff] at hnil
  have h1 : c ∈ cs.dropWhile Char.isWhitespace := mem_dropWhile_of_nonws hc hw
  have h2 : c ∈ (cs.dropWhile Char.isWhitespace).reverse := List.mem_reverse.mpr h1
  have := hnil c h2
  rw [hw] at this
  exact absurd this (by simp)

/-- In a word array of tokens, the chunk built at any in-range index is
nonempty after trimming. -/
theorem chunk_nonempty {words : List String} {chunkSize i : Nat}
    (hcs : 0 < chunkSize) (hi : i < words.length)
    (htok : ∀ w ∈ words, isWordToken w = true) :
    (jsTrim (jsJoin ((words.drop i).take chunkSize))).data.isEmpty = false := by
  have hslice : (words.drop i).take chunkSize ≠ [] := by
    have hlen : ((words.drop i).take chunkSize).length = min chunkSize (words.length - i) := by
      simp [List.length_take, List.length_drop]
    intro hnil
    rw [hnil] at hlen
    simp at hlen
    omega
  have htok' : ∀ w ∈ (words.drop i).take chunkSize, isWordToken w = true := by
    intro w hw
    exact htok w (List.drop_subset i words (List.take_subset chunkSize _ hw))
  have hnonws := jsJoin_has_nonws hslice htok'
  have hne : trimChars (jsJoin ((words.drop i).take chunkSize)).data ≠ [] :=
    trimChars_ne_nil hnonws
  have : (jsTrim (jsJoin ((words.drop i).take chunkSize))).data
      = trimChars (jsJoin ((words.drop i).take chunkSize)).data := rfl
  rw [this]
  cases hcase : trimChars (jsJoin ((words.drop i).take chunkSize)).data with
  | nil => exact absurd hcase hne
  | cons a l => rfl

/-- On a word array of tokens, the chunk loop and the range loop run in
lockstep: no chunk is ever dropped by the nonempty-trim test. -/
theorem chunkWordsGo_length_eq {words : List String} {chunkSize step : Nat}
    (hcs : 0 < chunkSize)
    (htok : ∀ w ∈ words, isWordToken w = true) :
    ∀ fuel i,
    (chunkWordsGo words chunkSize step fuel i).length
      = (chunkRangesGo words.length chunkSize step fuel i).length := by
  intro fuel
  induction fuel with
  | zero => intro i; rfl
  | succ fuel ih =>
    intro i
    by_cases h : 0 < step ∧ i < words.length
    · rw [chunkWordsGo, chunkRangesGo, if_pos h, if_pos h]
      simp only [chunk_nonempty hcs h.2 htok, Bool.false_eq_true, if_false,
        List.length_cons]
      rw [ih (i + step)]
    · rw [chunkWordsGo, chunkRangesGo, if_neg h, if_neg h]
      rfl

/-- Explicit form of the range loop: starting at `i`, with enough fuel
it produces `ceil((N - i) / step)` ranges, the `k`-th starting at
`i + step * k`. -/
theorem chunkRangesGo_eq {chunkSize step : Nat} (hst : 0 < step) :
    ∀ fuel N i, N - i < fuel →
    chunkRangesGo N chunkSize step fuel i
      = (List.range ((N - i + (step - 1)) / step)).map
          (fun k => (i + step * k, min (i + step * k + chunkSize) N)) := by
  intro fuel
  induction fuel with
  | zero => intro N i hn; omega
  | succ fuel ih =>
    intro N i hn
    by_cases hi : i < N
    · rw [chunkRangesGo, if_pos ⟨hst, hi⟩]
      have hcount : (N - i + (step - 1)) / step
          = ((N - (i + step)) + (step - 1)) / step + 1 := by
        rcases le_or_lt step (N - i) with hle | hlt
        · have h1 : N - i + (step - 1) = (N - (i + step) + (step - 1)) + step := by omega
          rw [h1, Nat.add_div_right _ hst]
        · have h1 : N - (i + step) = 0 := by omega
          have h2 : (N - i + (step - 1)) / step = 1 := by
            apply Nat.div_eq_of_lt_le
            · omega
            · omega
          have h3 : (0 + (step - 1)) / step = 0 := Nat.div_eq_of_lt (by omega)
          rw [h1, h2, h3]
      rw [hcount, List.range_succ_eq_map, List.map_cons]
      have hhead : (i + step * 0, min (i + step * 0 + chunkSize) N)
          = (i, min (i + chunkSize) N) := by simp
      rw [hhead, List.map_map]
      rw [ih N (i + step) (by omega)]
      have hfun : ((fun k => (i + step * k, min (i + step * k + chunkSize) N))
            ∘ Nat.succ)
          = (fun k => (i + step + step * k, min (i + step + step * k + chunkSize) N)) := by
        funext k
        have harg : i + step * (k + 1) = i + step + step * k := by
          rw [Nat.mul_succ]; omega
        simp only [Function.comp_apply, Nat.succ_eq_add_one, harg]
      rw [hfun]
    · rw [chunkRangesGo, if_neg (fun hc => hi hc.2)]
      have h0 : N - i = 0 := by omega
      rw [h0]
      have : (0 + (step - 1)) / step = 0 := Nat.div_eq_of_lt (by omega)
      rw [this]
      simp

/-- The ranges the loop produces cover every token index from the start
index to the end of the word array, provided the stride does not exceed
the chunk size. -/
theorem chunkRangesGo_covers {chunkSize step : Nat} (hst : 0 < step)
    (hsc : step ≤ chunkSize) :
    ∀ fuel N i t, N - i < fuel → i ≤ t → t < N →
    ∃ r ∈ chunkRangesGo N chunkSize step fuel i, r.1 ≤ t ∧ t < r.2 := by
  intro fuel
  induction fuel with
  | zero => intro N i t hn _ _; omega
  | succ fuel ih =>
    intro N i t hn h1 h2
    have hi : i < N := lt_of_le_of_lt h1 h2
    rw [chunkRangesGo, if_pos ⟨hst, hi⟩]
    by_cases ht : t < i + step
    · exact ⟨(i, min (i + chunkSize) N), List.mem_cons_self _ _,
        h1, lt_min (by omega) h2⟩
    · obtain ⟨r, hr, hr2⟩ := ih N (i + step) t (by omega) (by omega) h2
      exact ⟨r, List.mem_cons_of_mem _ hr, hr2⟩

/-- C9: for a text of `N ≥ 1` word tokens, `chunkText` with chunk size
512 and overlap 64 produces exactly `ceil(N / 448)` chunks; the `k`-th
chunk's token range starts at `448 * k` (i.e. 448 tokens after the
previous one) and the ranges cover `[0, N)` with no gaps. -/
theorem chunkText_coverage (text : String)
    (hN : 1 ≤ (jsSplitWs text).length)
    (htok : ∀ w ∈ jsSplitWs text, isWordToken w = true) :
    (chunkText text 512 64).length = ((jsSplitWs text).length + 447) / 448
    ∧ chunkRanges (jsSplitWs text).length 512 64
        = (List.range (((jsSplitWs text).length + 447) / 448)).map
            (fun k => (448 * k, min (448 * k + 512) (jsSplitWs text).length))
    ∧ ∀ t, t < (jsSplitWs text).length →
        ∃ r ∈ chunkRanges (jsSplitWs text).length 512 64, r.1 ≤ t ∧ t < r.2 := by
  have hsplit : chunkText text 512 64
      = chunkWordsGo (jsSplitWs text) 512 448 ((jsSplitWs text).length + 1) 0 := rfl
  have hranges : chunkRanges (jsSplitWs text).length 512 64
      = chunkRangesGo (jsSplitWs text).length 512 448 ((jsSplitWs text).length + 1) 0 := rfl
  refine ⟨?_, ?_, ?_⟩
  · rw [hsplit]
    rw [chunkWordsGo_length_eq (by norm_num) htok ((jsSplitWs text).length + 1) 0]
    rw [chunkRangesGo_eq (by norm_num) ((jsSplitWs text).length + 1)
      ((jsSplitWs text).length) 0 (by omega)]
    simp
  · rw [hranges, chunkRangesGo_eq (by norm_num) ((jsSplitWs text).length + 1)
      ((jsSplitWs text).length) 0 (by omega)]
    simp
  · intro t ht
    rw [hranges]
    exact chunkRangesGo_covers (by norm_num) (by norm_num) ((jsSplitWs text).length + 1)
      ((jsSplitWs text).length) 0 t (by omega) (by omega) ht

/-- Witness for C9: the one-token text `"a"` satisfies the hypotheses
and the coverage conclusion. -/
theorem chunkText_coverage_witness :
    (1 ≤ (jsSplitWs "a").length ∧ ∀ w ∈ jsSplitWs "a", isWordToken w = true) ∧
    ((chunkText "a" 512 64).length = ((jsSplitWs "a").length + 447) / 448
     ∧ chunkRanges (jsSplitWs "a").length 512 64
         = (List.range (((jsSplitWs "a").length + 447) / 448)).map
             (fun k => (448 * k, min (448 * k + 512) (jsSplitWs "a").length))
     ∧ ∀ t, t < (jsSplitWs "a").length →
         ∃ r ∈ chunkRanges (jsSplitWs "a").length 512 64, r.1 ≤ t ∧ t < r.2) :=
  ⟨⟨by decide, by decide⟩, chunkText_coverage "a" (by decide) (by decide)⟩

/-! ## Stage payloads and score clamping (EvaluationWorker) -/

/-- The four Stage A (S1) sub-scores, `llmResponse.parameters` for the
CV evaluation (JavaScript numbers modelled as rationals). -/
structure CVParameters where
  technical_skills : ℚ
  experience_level : ℚ
  relevant_achievements : ℚ
  cultural_fit : ℚ
deriving DecidableEq

/-- Stage A artifact payload (`CVEvaluationPayload` in
src/types/evaluation.ts). -/
structure CVEvaluationPayload where
  parameters : CVParameters
  weighted_average_1_to_5 : ℚ
  cv_match_rate : ℚ
  cv_feedback : String
deriving DecidableEq

/-- The five Stage B (S2) sub-scores, `llmResponse.parameters` for the
project evaluation. -/
structure ProjectParameters where
  correctness : ℚ
  code_quality : ℚ
  resilience : ℚ
  documentation : ℚ
  creativity : ℚ
deriving DecidableEq

/-- Stage B artifact payload (`ProjectEvaluationPayload`). -/
structure ProjectEvaluationPayload where
  parameters : ProjectParameters
  project_score : ℚ
  project_feedback : String
deriving DecidableEq

/-- Stage C artifact payload (`FinalSynthesisPayload`). -/
structure FinalSynthesisPayload where
  overall_summary : String
deriving DecidableEq

/-- Raw structured generative response consumed by Stage A (same field
shape as the payload; values are whatever the model returned). -/
structure S1Response where
  parameters : CVParameters
  weighted_average_1_to_5 : ℚ
  cv_match_rate : ℚ
  cv_feedback : String
deriving DecidableEq

/-- Raw structured generative response consumed by Stage B. -/
structure S2Response where
  parameters : ProjectParameters
  project_score : ℚ
  project_feedback : String
deriving DecidableEq

/-- Raw structured generative response consumed by Stage C. -/
structure S3Response where
  overall_summary : String
deriving DecidableEq

/-- The payload construction of `processStageS1` (evaluation-worker.ts):
every sub-score and the weighted average pass through
`Math.max(1, Math.min(5, x))`, the match rate through
`Math.max(0, Math.min(1, x))`, and the feedback is taken verbatim. -/
def mkS1Payload (r : S1Response) : CVEvaluationPayload :=
  { parameters :=
      { technical_skills := max 1 (min 5 r.parameters.technical_skills)
        experience_level := max 1 (min 5 r.parameters.experience_level)
        relevant_achievements := max 1 (min 5 r.parameters.relevant_achievements)
        cultural_fit := max 1 (min 5 r.parameters.cultural_fit) }
    weighted_average_1_to_5 := max 1 (min 5 r.weighted_average_1_to_5)
    cv_match_rate := max 0 (min 1 r.cv_match_rate)
    cv_feedback := r.cv_feedback }

/-- The payload construction of `processStageS2`: the five sub-scores
and the project score pass through `Math.max(1, Math.min(5, x))`. -/
def mkS2Payload (r : S2Response) : ProjectEvaluationPayload :=
  { parameters :=
      { correctness := max 1 (min 5 r.parameters.correctness)
        code_quality := max 1 (min 5 r.parameters.code_quality)
        resilience := max 1 (min 5 r.parameters.resilience)
        documentation := max 1 (min 5 r.parameters.documentation)
        creativity := max 1 (min 5 r.parameters.creativity) }
    project_score := max 1 (min 5 r.project_score)
    project_feedback := r.project_feedback }

/-- Specification-side clamping, following the spec's words: a value
below the range is stored as the lower bound, a value above it as the
upper bound, and an in-range value raw ("the nearest bound, never
raw" for out-of-range values). -/
def nearestBound (lo hi x : ℚ) : ℚ :=
  if x < lo then lo else if hi < x then hi else x

/-- The code's `Math.max(lo, Math.min(hi, x))` computes exactly the
spec's nearest-bound clamping whenever `lo ≤ hi`. -/
theorem clamp_eq_nearestBound (lo hi x : ℚ) (h : lo ≤ hi) :
    max lo (min hi x) = nearestBound lo hi x := by
  unfold nearestBound
  rcases lt_trichotomy x lo with h1 | h1 | h1
  · rw [if_pos h1, min_eq_right (by linarith), max_eq_left (by linarith)]
  · subst h1
    rw [if_neg (lt_irrefl x), if_neg (by linarith), min_eq_right h, max_eq_right le_rfl]
  · rw [if_neg (by linarith)]
    rcases le_or_lt x hi with h2 | h2
    · rw [if_neg (by linarith), min_eq_right h2, max_eq_right (by linarith)]
    · rw [if_pos h2, min_eq_left (by linarith), max_eq_right h]

/-- C4: every numeric field persisted by Stage A and Stage B equals the
nearest-bound clamping of the corresponding raw model value to its
documented range — the four Stage A sub-scores and the weighted average
to `[1, 5]`, `cv_match_rate` to `[0, 1]`, and the five Stage B
sub-scores and `project_score` to `[1, 5]` — so an out-of-range value
(for example `technical_skills = 9`) is stored as the nearest bound,
never raw. -/
theorem stage_payload_clamping (r : S1Response) (s : S2Response) :
    (mkS1Payload r).parameters.technical_skills
        = nearestBound 1 5 r.parameters.technical_skills
    ∧ (mkS1Payload r).parameters.experience_level
        = nearestBound 1 5 r.parameters.experience_level
    ∧ (mkS1Payload r).parameters.relevant_achievements
        = nearestBound 1 5 r.parameters.relevant_achievements
    ∧ (mkS1Payload r).parameters.cultural_fit
        = nearestBound 1 5 r.parameters.cultural_fit
    ∧ (mkS1Payload r).weighted_average_1_to_5
        = nearestBound 1 5 r.weighted_average_1_to_5
    ∧ (mkS1Payload r).cv_match_rate = nearestBound 0 1 r.cv_match_rate
    ∧ (mkS2Payload s).parameters.correctness
        = nearestBound 1 5 s.parameters.correctness
    ∧ (mkS2Payload s).parameters.code_quality
        = nearestBound 1 5 s.parameters.code_quality
    ∧ (mkS2Payload s).parameters.resilience
        = nearestBound 1 5 s.parameters.resilience
    ∧ (mkS2Payload s).parameters.documentation
        = nearestBound 1 5 s.parameters.documentation
    ∧ (mkS2Payload s).parameters.creativity
        = nearestBound 1 5 s.parameters.creativity
    ∧ (mkS2Payload s).project_score = nearestBound 1 5 s.project_score := by
  refine ⟨?_, ?_, ?_, ?_, ?_, ?_, ?_, ?_, ?_, ?_, ?_, ?_⟩ <;>
    exact clamp_eq_nearestBound _ _ _ (by norm_num)

/-! ## Evaluation worker data model (src/db/entities, evaluation-worker.ts) -/

/-- A row of the `jobs` table (`Job` entity): `status` is one of
`queued / processing / completed / failed`, `error_code` is nullable,
`attempts` is an integer defaulting to 0 (so `job.attempts || 0` in the
source is just the stored value, modelled as `Nat`). -/
structure JobRow where
  id : Nat
  status : String
  error_code : Option String
  attempts : Nat
deriving DecidableEq

/-- A row of the `files` table (`File` entity): uploaded CV or report. -/
structure FileRow where
  id : Nat
  type : String
  storage_uri : String
deriving DecidableEq

/-- Stage artifact payload as persisted in `payload_json`. -/
inductive ArtifactPayload where
  | s1 (p : CVEvaluationPayload)
  | s2 (p : ProjectEvaluationPayload)
  | s3 (p : FinalSynthesisPayload)
deriving DecidableEq

/-- A row of the `job_artifacts` table (`JobArtifact` entity). -/
structure JobArtifact where
  jobId : Nat
  stage : String
  payload_json : ArtifactPayload
  version : String
deriving DecidableEq

/-- The relational state the worker touches: jobs, files, artifacts.
`artifactRepository.save` with no primary key inserts a new row, so the
artifact store is a list to which saves append. -/
structure WorkerState where
  jobs : List JobRow
  files : List FileRow
  artifacts : List JobArtifact
deriving DecidableEq

/-- `jobRepository.findOne({ where: { id } })`: first row with the id. -/
def findJob (jobs : List JobRow) (id : Nat) : Option JobRow :=
  jobs.find? (fun j => j.id == id)

/-- `jobRepository.save(job)` for an entity with a primary key: replaces
the (first) row with the same id, inserting if absent. -/
def saveJob : List JobRow → JobRow → List JobRow
  | [], j => [j]
  | r :: rs, j => if r.id == j.id then j :: rs else r :: saveJob rs j

/-- The mutation block of the dependency-injected
`EvaluationWorker.updateJobStatus`: set `status`; set `error_code` when
an error code is given; increment `attempts` only when
`incrementAttempts` is set. -/
def applyJobUpdate (job : JobRow) (status : String) (errorCode : Option String)
    (incrementAttempts : Bool) : JobRow :=
  let job := { job with status := status }
  let job :=
    match errorCode with
    | some e => { job with error_code := some e }
    | none => job
  if incrementAttempts then { job with attempts := job.attempts + 1 } else job

/-- Dependency-injected `EvaluationWorker.updateJobStatus(jobId, status,
errorCode?, incrementAttempts = false)`: a read-then-write on the job
row; a no-op when the job does not exist. -/
def updateJobStatus (jobs : List JobRow) (jobId : Nat) (status : String)
    (errorCode : Option String) (incrementAttempts : Bool) : List JobRow :=
  match findJob jobs jobId with
  | none => jobs
  | some job => saveJob jobs (applyJobUpdate job status errorCode incrementAttempts)

/-- The mutation block of the legacy `EvaluationWorker.updateJobStatus`
(second worker variant in evaluation-worker.ts): set `status`, set
`error_code` when given, and increment `attempts` unconditionally
(`job.attempts = (job.attempts || 0) + 1`). -/
def applyJobUpdateLegacy (job : JobRow) (status : String)
    (errorCode : Option String) : JobRow :=
  let job := { job with status := status }
  let job :=
    match errorCode with
    | some e => { job with error_code := some e }
    | none => job
  { job with attempts := job.attempts + 1 }

/-- Legacy `EvaluationWorker.updateJobStatus(jobId, status, errorCode?)`:
increments `attempts` on every update that finds the job. -/
def updateJobStatusLegacy (jobs : List JobRow) (jobId : Nat) (status : String)
    (errorCode : Option String) : List JobRow :=
  match findJob jobs jobId with
  | none => jobs
  | some job => saveJob jobs (applyJobUpdateLegacy job status errorCode)

/-- One retrieval source record returned by the RAG service. -/
structure RagSource where
  document_type : String
  chunk_text : String
  score : ℚ
deriving DecidableEq

/-- Result of a RAG retrieval: assembled context plus sources. -/
structure RagResult where
  context : String
  sources : List RagSource
deriving DecidableEq

/-- Oracles for the worker's external collaborators: the filesystem and
pdf parser (`readPdfText`), the three stage-scoped RAG retrievals, and
the three structured-completion calls.  The completion oracles take the
retrieved context and the stage inputs; the exact prompt strings the
worker interpolates around them are a spec non-goal and are not
reproduced. -/
structure WorkerEnv where
  readPdfText : String → Except JSError String
  retrieveCVContext : String → Nat → Except JSError RagResult
  retrieveProjectContext : String → Nat → Except JSError RagResult
  retrieveFinalContext : String → Nat → Except JSError RagResult
  llmS1 : String → String → Except JSError S1Response
  llmS2 : String → String → Except JSError S2Response
  llmS3 : String → ArtifactPayload → ArtifactPayload → Except JSError S3Response

/-- `EvaluationWorker.parsePDF`: reads and parses the file, wrapping any
failure in a `PDF parsing failed: ...` error. -/
def parsePDF (env : WorkerEnv) (filePath : String) : Except JSError String :=
  match env.readPdfText filePath with
  | .ok t => .ok t
  | .error e => .error ⟨none, none, some ("PDF parsing failed: " ++ jsErrMessage e)⟩

/-- `EvaluationWorker.processStageS1`: parse the CV, retrieve CV-stage
context (`topK = 6`), call structured completion, clamp the payload and
append the Stage A artifact.  Any failure propagates unchanged (the
stage catch logs and rethrows). -/
def processStageS1 (env : WorkerEnv) (jobId : Nat) (cvFile : FileRow)
    (jobTitle : String) (arts : List JobArtifact) :
    Except JSError (List JobArtifact) :=
  match parsePDF env cvFile.storage_uri with
  | .error e => .error e
  | .ok cvText =>
    match env.retrieveCVContext
        ("Evaluate CV for " ++ jobTitle
          ++ " position - technical skills, experience level, achievements, and cultural fit") 6 with
    | .error e => .error e
    | .ok rag =>
      match env.llmS1 rag.context cvText with
      | .error e => .error e
      | .ok resp => .ok (arts ++ [⟨jobId, "S1", .s1 (mkS1Payload resp), "1.0"⟩])

/-- `EvaluationWorker.processStageS2`: as Stage A but for the report
file, the project-stage retrieval and the five project sub-scores. -/
def processStageS2 (env : WorkerEnv) (jobId : Nat) (reportFile : FileRow)
    (jobTitle : String) (arts : List JobArtifact) :
    Except JSError (List JobArtifact) :=
  match parsePDF env reportFile.storage_uri with
  | .error e => .error e
  | .ok projectText =>
    match env.retrieveProjectContext
        ("Evaluate project report for " ++ jobTitle
          ++ " position - correctness, code quality, resilience, documentation, and creativity") 6 with
    | .error e => .error e
    | .ok rag =>
      match env.llmS2 rag.context projectText with
      | .error e => .error e
      | .ok resp => .ok (arts ++ [⟨jobId, "S2", .s2 (mkS2Payload resp), "1.0"⟩])

/-- `artifactRepository.findOne({ where: { jobId, stage } })`. -/
def findArtifact (arts : List JobArtifact) (jobId : Nat) (stage : String) :
    Option JobArtifact :=
  arts.find? (fun a => a.jobId == jobId && a.stage == stage)

/-- `EvaluationWorker.processStageS3`: loads the Stage A and Stage B
artifacts first and throws `Previous stage results not found for final
synthesis` before any retrieval, completion or save when either is
missing; otherwise retrieves final context (`topK = 4`), synthesizes and
appends the Stage C artifact. -/
def processStageS3 (env : WorkerEnv) (jobId : Nat) (arts : List JobArtifact) :
    Except JSError (List JobArtifact) :=
  match findArtifact arts jobId "S1" with
  | none => .error ⟨none, none, some "Previous stage results not found for final synthesis"⟩
  | some s1Artifact =>
    match findArtifact arts jobId "S2" with
    | none => .error ⟨none, none, some "Previous stage results not found for final synthesis"⟩
    | some s2Artifact =>
      match env.retrieveFinalContext "Final candidate assessment and hiring recommendation" 4 with
      | .error e => .error e
      | .ok rag =>
        match env.llmS3 rag.context s1Artifact.payload_json s2Artifact.payload_json with
        | .error e => .error e
        | .ok resp => .ok (arts ++ [⟨jobId, "S3", .s3 ⟨resp.overall_summary⟩, "1.0"⟩])

/-- The catch block of `processEvaluation`: mark the job failed with the
fixed `processing_error` classification, incrementing `attempts`, and
re-raise the error. -/
def failFinish (jobId : Nat) (e : JSError) (st : WorkerState) :
    Except JSError (Bool × Nat) × WorkerState :=
  (.error e,
   { st with jobs := updateJobStatus st.jobs jobId "failed" (some "processing_error") true })

/-- Dependency-injected `EvaluationWorker.processEvaluation`: mark the
job `processing` (without touching `attempts`), verify both files exist
with the expected kinds, run stages S1, S2, S3 in order, then mark the
job `completed` (again without touching `attempts`); on any error from
those steps, run the catch block `failFinish`.  (The source performs the
two file lookups before checking both; as pure reads the nested lookup
order is observationally identical.) -/
def processEvaluation (env : WorkerEnv) (jobId : Nat) (jobTitle : String)
    (cvFileId reportFileId : Nat) (st : WorkerState) :
    Except JSError (Bool × Nat) × WorkerState :=
  let st1 : WorkerState :=
    { st with jobs := updateJobStatus st.jobs jobId "processing" none false }
  match st1.files.find? (fun f => f.id == cvFileId && f.type == "cv") with
  | none => failFinish jobId ⟨none, none, some "Required files not found"⟩ st1
  | some cvFile =>
    match st1.files.find? (fun f => f.id == reportFileId && f.type == "report") with
    | none => failFinish jobId ⟨none, none, some "Required files not found"⟩ st1
    | some reportFile =>
      match processStageS1 env jobId cvFile jobTitle st1.artifacts with
      | .error e => failFinish jobId e st1
      | .ok a1 =>
        match processStageS2 env jobId reportFile jobTitle a1 with
        | .error e => failFinish jobId e { st1 with artifacts := a1 }
        | .ok a2 =>
          match processStageS3 env jobId a2 with
          | .error e => failFinish jobId e { st1 with artifacts := a2 }
          | .ok a3 =>
            (.ok (true, jobId),
             { st1 with
                 jobs := updateJobStatus st1.jobs jobId "completed" none false,
                 artifacts := a3 })

/-- A found job row carries the id it was looked up by. -/
theorem findJob_id {jobs : List JobRow} {id : Nat} {j0 : JobRow}
    (h : findJob jobs id = some j0) : j0.id = id := by
  have := List.find?_some h
  simpa using this

/-- Saving a row whose id is the id of the first matching row replaces
exactly that row, so a subsequent lookup returns the saved row. -/
theorem findJob_saveJob {jobs : List JobRow} {id : Nat} {j0 : JobRow} (jN : JobRow)
    (h : findJob jobs id = some j0) (hid : jN.id = j0.id) :
    findJob (saveJob jobs jN) id = some jN := by
  induction jobs with
  | nil => simp [findJob] at h
  | cons r rs ih =>
    unfold findJob at h
    cases hr : (r.id == id) with
    | true =>
      have hrj : r = j0 := by
        simp only [List.find?, hr] at h
        exact Option.some.inj h
      have hNr : jN.id = r.id := by rw [hid, ← hrj]
      have hN : (r.id == jN.id) = true := by simp [hNr]
      have hNid : (jN.id == id) = true := by rw [hNr]; exact hr
      unfold findJob
      simp only [saveJob, hN, if_true, List.find?, hNid]
    | false =>
      have h' : findJob rs id = some j0 := by
        unfold findJob
        simp only [List.find?, hr] at h
        exact h
      have hN : (r.id == jN.id) = false := by
        rw [hid, findJob_id h']
        exact hr
      unfold findJob
      simp only [saveJob, hN, Bool.false_eq_true, if_false, List.find?, hr]
      exact ih h'

/-- The job-update mutation never changes the row id. -/
theorem applyJobUpdate_id (j : JobRow) (s : String) (ec : Option String) (inc : Bool) :
    (applyJobUpdate j s ec inc).id = j.id := by
  unfold applyJobUpdate
  cases ec <;> cases inc <;> rfl

/-- The legacy job-update mutation never changes the row id. -/
theorem applyJobUpdateLegacy_id (j : JobRow) (s : String) (ec : Option String) :
    (applyJobUpdateLegacy j s ec).id = j.id := by
  unfold applyJobUpdateLegacy
  cases ec <;> rfl

/-- When the job exists, `updateJobStatus` stores exactly the mutated
row, and a subsequent lookup returns it. -/
theorem updateJobStatus_found {jobs : List JobRow} {id : Nat} {j0 : JobRow}
    (h : findJob jobs id = some j0) (s : String) (ec : Option String) (inc : Bool) :
    findJob (updateJobStatus jobs id s ec inc) id
      = some (applyJobUpdate j0 s ec inc) := by
  unfold updateJobStatus
  rw [h]
  exact findJob_saveJob _ h (applyJobUpdate_id j0 s ec inc)

/-- When the job exists, the legacy `updateJobStatus` stores exactly the
legacy-mutated row. -/
theorem updateJobStatusLegacy_found {jobs : List JobRow} {id : Nat} {j0 : JobRow}
    (h : findJob jobs id = some j0) (s : String) (ec : Option String) :
    findJob (updateJobStatusLegacy jobs id s ec) id
      = some (applyJobUpdateLegacy j0 s ec) := by
  unfold updateJobStatusLegacy
  rw [h]
  exact findJob_saveJob _ h (applyJobUpdateLegacy_id j0 s ec)

/-- A successful Stage A run appends exactly one `S1` artifact. -/
theorem processStageS1_ok_shape {env : WorkerEnv} {jobId : Nat} {cvFile : FileRow}
    {jobTitle : String} {arts a1 : List JobArtifact}
    (h : processStageS1 env jobId cvFile jobTitle arts = .ok a1) :
    ∃ p, a1 = arts ++ [⟨jobId, "S1", .s1 p, "1.0"⟩] := by
  unfold processStageS1 at h
  split at h
  · exact absurd h (by simp)
  · split at h
    · exact absurd h (by simp)
    · split at h
      · exact absurd h (by simp)
      · exact ⟨_, (Except.ok.inj h).symm⟩

/-- A successful Stage B run appends exactly one `S2` artifact. -/
theorem processStageS2_ok_shape {env : WorkerEnv} {jobId : Nat} {reportFile : FileRow}
    {jobTitle : String} {arts a2 : List JobArtifact}
    (h : processStageS2 env jobId reportFile jobTitle arts = .ok a2) :
    ∃ p, a2 = arts ++ [⟨jobId, "S2", .s2 p, "1.0"⟩] := by
  unfold processStageS2 at h
  split at h
  · exact absurd h (by simp)
  · split at h
    · exact absurd h (by simp)
    · split at h
      · exact absurd h (by simp)
      · exact ⟨_, (Except.ok.inj h).symm⟩

/-- A successful Stage C run appends exactly one `S3` artifact. -/
theorem processStageS3_ok_shape {env : WorkerEnv} {jobId : Nat}
    {arts a3 : List JobArtifact}
    (h : processStageS3 env jobId arts = .ok a3) :
    ∃ p, a3 = arts ++ [⟨jobId, "S3", .s3 p, "1.0"⟩] := by
  unfold processStageS3 at h
  split at h
  · exact absurd h (by simp)
  · split at h
    · exact absurd h (by simp)
    · split at h
      · exact absurd h (by simp)
      · split at h
        · exact absurd h (by simp)
        · exact ⟨_, (Except.ok.inj h).symm⟩

/-- Master case analysis of one `processEvaluation` attempt: either some
step raised and the catch block ran — leaving the job rows first updated
to `processing` and then to `failed` with `processing_error` and an
attempts increment — or every step succeeded and the run appended
exactly one artifact per stage and marked the job `completed`. -/
theorem processEvaluation_run (env : WorkerEnv) (jobId : Nat) (jobTitle : String)
    (cvFileId reportFileId : Nat) (st : WorkerState) :
    (∃ e arts,
      processEvaluation env jobId jobTitle cvFileId reportFileId st
        = (.error e,
           ⟨updateJobStatus (updateJobStatus st.jobs jobId "processing" none false)
              jobId "failed" (some "processing_error") true,
            st.files, arts⟩))
    ∨ (∃ p1 p2 p3,
      processEvaluation env jobId jobTitle cvFileId reportFileId st
        = (.ok (true, jobId),
           ⟨updateJobStatus (updateJobStatus st.jobs jobId "processing" none false)
              jobId "completed" none false,
            st.files,
            ((st.artifacts ++ [⟨jobId, "S1", .s1 p1, "1.0"⟩])
              ++ [⟨jobId, "S2", .s2 p2, "1.0"⟩]) ++ [⟨jobId, "S3", .s3 p3, "1.0"⟩]⟩)) := by
  cases hcv : st.files.find? (fun f => f.id == cvFileId && f.type == "cv") with
  | none =>
    left
    exact ⟨⟨none, none, some "Required files not found"⟩, st.artifacts,
      by simp only [processEvaluation, failFinish, hcv]⟩
  | some cvFile =>
    cases hrp : st.files.find? (fun f => f.id == reportFileId && f.type == "report") with
    | none =>
      left
      exact ⟨⟨none, none, some "Required files not found"⟩, st.artifacts,
        by simp only [processEvaluation, failFinish, hcv, hrp]⟩
    | some reportFile =>
      cases hs1 : processStageS1 env jobId cvFile jobTitle st.artifacts with
      | error e =>
        left
        exact ⟨e, st.artifacts,
          by simp only [processEvaluation, failFinish, hcv, hrp, hs1]⟩
      | ok a1 =>
        cases hs2 : processStageS2 env jobId reportFile jobTitle a1 with
        | error e =>
          left
          exact ⟨e, a1,
            by simp only [processEvaluation, failFinish, hcv, hrp, hs1, hs2]⟩
        | ok a2 =>
          cases hs3 : processStageS3 env jobId a2 with
          | error e =>
            left
            exact ⟨e, a2,
              by simp only [processEvaluation, failFinish, hcv, hrp, hs1, hs2, hs3]⟩
          | ok a3 =>
            right
            obtain ⟨p1, hp1⟩ := processStageS1_ok_shape hs1
            obtain ⟨p2, hp2⟩ := processStageS2_ok_shape hs2
            obtain ⟨p3, hp3⟩ := processStageS3_ok_shape hs3
            refine ⟨p1, p2, p3, ?_⟩
            simp only [processEvaluation, hcv, hrp, hs1, hs2, hs3]
            rw [hp3, hp2, hp1]

/-- A list containing an element satisfying the predicate has a
successful `find?`. -/
theorem find?_isSome_of_mem {α : Type} (l : List α) (p : α → Bool) (x : α)
    (hx : x ∈ l) (hp : p x = true) : (l.find? p).isSome = true := by
  induction l with
  | nil => cases hx
  | cons a l ih =>
    cases hmem : p a with
    | true => simp [List.find?, hmem]
    | false =>
      rcases List.mem_cons.mp hx with rfl | hx'
      · rw [hmem] at hp; cases hp
      · simp only [List.find?, hmem]
        exact ih hx'

/-- C1: if any step of a per-attempt execution (file verification or
Stage A/B/C) raises, `processEvaluation` re-raises the error and leaves
the job `failed` with error code `processing_error` and its attempts
counter incremented; and whenever the final job row is `completed`, all
three stage artifacts exist — never a completed job with missing
artifacts. -/
theorem processEvaluation_failure_sets_failed (env : WorkerEnv) (jobId : Nat)
    (jobTitle : String) (cvFileId reportFileId : Nat) (st : WorkerState)
    (j0 : JobRow) (hfind : findJob st.jobs jobId = some j0) :
    (∀ e, (processEvaluation env jobId jobTitle cvFileId reportFileId st).1 = .error e →
      findJob (processEvaluation env jobId jobTitle cvFileId reportFileId st).2.jobs jobId
        = some ⟨j0.id, "failed", some "processing_error", j0.attempts + 1⟩)
    ∧ (∀ j', findJob (processEvaluation env jobId jobTitle cvFileId reportFileId st).2.jobs jobId
          = some j' → j'.status = "completed" →
        (findArtifact (processEvaluation env jobId jobTitle cvFileId reportFileId st).2.artifacts
            jobId "S1").isSome = true
        ∧ (findArtifact (processEvaluation env jobId jobTitle cvFileId reportFileId st).2.artifacts
            jobId "S2").isSome = true
        ∧ (findArtifact (processEvaluation env jobId jobTitle cvFileId reportFileId st).2.artifacts
            jobId "S3").isSome = true) := by
  rcases processEvaluation_run env jobId jobTitle cvFileId reportFileId st with
    ⟨e0, arts, heq⟩ | ⟨p1, p2, p3, heq⟩
  · constructor
    · intro e _
      rw [heq]
      exact updateJobStatus_found (updateJobStatus_found hfind "processing" none false)
        "failed" (some "processing_error") true
    · intro j' hj' hstat
      rw [heq] at hj'
      have h2 := updateJobStatus_found (updateJobStatus_found hfind "processing" none false)
        "failed" (some "processing_error") true
      rw [h2] at hj'
      rw [← Option.some.inj hj'] at hstat
      simp [applyJobUpdate] at hstat
  · constructor
    · intro e he
      rw [heq] at he
      exact absurd he (by simp)
    · intro j' _ _
      rw [heq]
      refine ⟨?_, ?_, ?_⟩
      · exact find?_isSome_of_mem _ _ (⟨jobId, "S1", .s1 p1, "1.0"⟩ : JobArtifact)
          (List.mem_append_left _ (List.mem_append_left _
            (List.mem_append_right _ (List.mem_cons_self _ _)))) (by simp)
      · exact find?_isSome_of_mem _ _ (⟨jobId, "S2", .s2 p2, "1.0"⟩ : JobArtifact)
          (List.mem_append_left _ (List.mem_append_right _ (List.mem_cons_self _ _)))
          (by simp)
      · exact find?_isSome_of_mem _ _ (⟨jobId, "S3", .s3 p3, "1.0"⟩ : JobArtifact)
          (List.mem_append_right _ (List.mem_cons_self _ _)) (by simp)

/-- A sample worker environment in which every collaborator succeeds. -/
def sampleWorkerEnv : WorkerEnv :=
  { readPdfText := fun _ => .ok "parsed document text"
    retrieveCVContext := fun _ _ => .ok ⟨"cv context", []⟩
    retrieveProjectContext := fun _ _ => .ok ⟨"project context", []⟩
    retrieveFinalContext := fun _ _ => .ok ⟨"final context", []⟩
    llmS1 := fun _ _ => .ok ⟨⟨4, 5, 4, 4⟩, 17 / 4, 17 / 20, "strong CV"⟩
    llmS2 := fun _ _ => .ok ⟨⟨4, 4, 3, 4, 4⟩, 19 / 5, "solid project"⟩
    llmS3 := fun _ _ _ => .ok ⟨"recommended for hire"⟩ }

/-- A sample worker state: one queued job and its two uploaded files. -/
def sampleWorkerState : WorkerState :=
  ⟨[⟨1, "queued", none, 0⟩],
   [⟨1, "cv", "uploads/cv.pdf"⟩, ⟨2, "report", "uploads/report.pdf"⟩],
   []⟩

/-- Witness for C1: the sample job exists, so the failure-bookkeeping
and completed-implies-artifacts conclusions hold on the sample run. -/
theorem processEvaluation_failure_sets_failed_witness :
    findJob sampleWorkerState.jobs 1 = some ⟨1, "queued", none, 0⟩ ∧
    ((∀ e, (processEvaluation sampleWorkerEnv 1 "Backend Engineer" 1 2 sampleWorkerState).1
          = .error e →
       findJob (processEvaluation sampleWorkerEnv 1 "Backend Engineer" 1 2 sampleWorkerState).2.jobs 1
         = some ⟨1, "failed", some "processing_error", 1⟩)
     ∧ (∀ j', findJob (processEvaluation sampleWorkerEnv 1 "Backend Engineer" 1 2 sampleWorkerState).2.jobs 1
           = some j' → j'.status = "completed" →
         (findArtifact (processEvaluation sampleWorkerEnv 1 "Backend Engineer" 1 2 sampleWorkerState).2.artifacts
             1 "S1").isSome = true
         ∧ (findArtifact (processEvaluation sampleWorkerEnv 1 "Backend Engineer" 1 2 sampleWorkerState).2.artifacts
             1 "S2").isSome = true
         ∧ (findArtifact (processEvaluation sampleWorkerEnv 1 "Backend Engineer" 1 2 sampleWorkerState).2.artifacts
             1 "S3").isSome = true)) :=
  ⟨rfl, processEvaluation_failure_sets_failed sampleWorkerEnv 1 "Backend Engineer" 1 2
    sampleWorkerState ⟨1, "queued", none, 0⟩ rfl⟩

/-- C3: for every job id and any environment, running Stage C when the
Stage A (S1) or Stage B (S2) artifact does not exist fails with the
incomplete-stage-history error — before any retrieval, completion or
save — and the artifact store is left unchanged: no Stage C artifact is
persisted. -/
theorem processStageS3_incomplete_history (env : WorkerEnv) (jobId : Nat)
    (arts : List JobArtifact)
    (h : findArtifact arts jobId "S1" = none ∨ findArtifact arts jobId "S2" = none) :
    processStageS3 env jobId arts
      = .error ⟨none, none, some "Previous stage results not found for final synthesis"⟩
    ∧ (match processStageS3 env jobId arts with
       | .ok a' => a'
       | .error _ => arts) = arts := by
  have hmain : processStageS3 env jobId arts
      = .error ⟨none, none, some "Previous stage results not found for final synthesis"⟩ := by
    rcases h with h | h
    · simp only [processStageS3, h]
    · cases hA : findArtifact arts jobId "S1" with
      | none => simp only [processStageS3, hA]
      | some a => simp only [processStageS3, hA, h]
  refine ⟨hmain, ?_⟩
  rw [hmain]

/-- Witness for C3: on an empty artifact store, Stage C for job 7 fails
with the incomplete-stage-history error and persists nothing. -/
theorem processStageS3_incomplete_history_witness :
    (findArtifact [] 7 "S1" = none ∨ findArtifact [] 7 "S2" = none) ∧
    (processStageS3 sampleWorkerEnv 7 []
        = .error ⟨none, none, some "Previous stage results not found for final synthesis"⟩
     ∧ (match processStageS3 sampleWorkerEnv 7 [] with
        | .ok a' => a'
        | .error _ => ([] : List JobArtifact)) = []) :=
  ⟨Or.inl rfl, processStageS3_incomplete_history sampleWorkerEnv 7 [] (Or.inl rfl)⟩

/-- Counterexample for C2: in the legacy worker variant, a routine
progress update to `processing` already increments `attempts` — the
stored attempts counter after the update is not the previous value 0. -/
theorem legacy_updateJobStatus_increments_on_processing :
    (findJob (updateJobStatusLegacy [⟨1, "queued", none, 0⟩] 1 "processing" none) 1).map
        JobRow.attempts ≠ some 0 := by
  decide

/-- C2 (amended): in the dependency-injected worker, `updateJobStatus`
leaves `attempts` unchanged unless `incrementAttempts` is set and
increments it exactly once when it is set; a whole successful
`processEvaluation` run (routine `processing` and `completed` updates
only) leaves `attempts` unchanged.  The legacy worker variant's
`updateJobStatus`, by contrast, increments `attempts` on every status
update that finds the job, including routine progress updates. -/
theorem attempts_increment_policy :
    (∀ (jobs : List JobRow) (id : Nat) (s : String) (ec : Option String) (j0 : JobRow),
      findJob jobs id = some j0 →
      findJob (updateJobStatus jobs id s ec false) id = some (applyJobUpdate j0 s ec false)
      ∧ (applyJobUpdate j0 s ec false).attempts = j0.attempts)
    ∧ (∀ (jobs : List JobRow) (id : Nat) (s : String) (ec : Option String) (j0 : JobRow),
      findJob jobs id = some j0 →
      findJob (updateJobStatus jobs id s ec true) id = some (applyJobUpdate j0 s ec true)
      ∧ (applyJobUpdate j0 s ec true).attempts = j0.attempts + 1)
    ∧ (∀ (jobs : List JobRow) (id : Nat) (s : String) (ec : Option String) (j0 : JobRow),
      findJob jobs id = some j0 →
      findJob (updateJobStatusLegacy jobs id s ec) id = some (applyJobUpdateLegacy j0 s ec)
      ∧ (applyJobUpdateLegacy j0 s ec).attempts = j0.attempts + 1)
    ∧ (∀ (env : WorkerEnv) (jobId : Nat) (jobTitle : String)
        (cvFileId reportFileId : Nat) (st : WorkerState) (j0 : JobRow)
        (r : Bool × Nat),
      findJob st.jobs jobId = some j0 →
      (processEvaluation env jobId jobTitle cvFileId reportFileId st).1 = .ok r →
      ∃ j', findJob (processEvaluation env jobId jobTitle cvFileId reportFileId st).2.jobs jobId
          = some j' ∧ j'.attempts = j0.attempts) := by
  refine ⟨?_, ?_, ?_, ?_⟩
  · intro jobs id s ec j0 h
    exact ⟨updateJobStatus_found h s ec false, by unfold applyJobUpdate; cases ec <;> rfl⟩
  · intro jobs id s ec j0 h
    exact ⟨updateJobStatus_found h s ec true, by unfold applyJobUpdate; cases ec <;> rfl⟩
  · intro jobs id s ec j0 h
    exact ⟨updateJobStatusLegacy_found h s ec, by unfold applyJobUpdateLegacy; cases ec <;> rfl⟩
  · intro env jobId jobTitle cvFileId reportFileId st j0 r hfind hok
    rcases processEvaluation_run env jobId jobTitle cvFileId reportFileId st with
      ⟨e0, arts, heq⟩ | ⟨p1, p2, p3, heq⟩
    · rw [heq] at hok
      exact absurd hok (by simp)
    · rw [heq]
      exact ⟨applyJobUpdate (applyJobUpdate j0 "processing" none false) "completed" none false,
        updateJobStatus_found (updateJobStatus_found hfind "processing" none false)
          "completed" none false, rfl⟩

/-- Witness for C2's amended theorem: on a concrete queued job with
`attempts = 0`, the legacy update to `processing` stores attempts `1`. -/
theorem attempts_increment_policy_witness :
    findJob [⟨1, "queued", none, 0⟩] 1 = some ⟨1, "queued", none, 0⟩ ∧
    (findJob (updateJobStatusLegacy [⟨1, "queued", none, 0⟩] 1 "processing" none) 1
        = some (applyJobUpdateLegacy ⟨1, "queued", none, 0⟩ "processing" none)
     ∧ (applyJobUpdateLegacy ⟨1, "queued", none, 0⟩ "processing" none).attempts = 0 + 1) :=
  ⟨rfl, attempts_increment_policy.2.2.1 [⟨1, "queued", none, 0⟩] 1 "processing" none
    ⟨1, "queued", none, 0⟩ rfl⟩

/-! ## Vector store client (src/services/vector-db.service.ts) -/

/-- A JSON payload value as used in Qdrant point payloads and filters. -/
inductive JVal where
  | num (n : Int)
  | str (s : String)
deriving DecidableEq

/-- One `must` condition of a Qdrant filter: `{ key, match: { value } }`
(the `match` wrapper is flattened into `value`). -/
structure FilterCondition where
  key : String
  value : JVal
deriving DecidableEq

/-- A Qdrant filter with its `must` conjunction. -/
structure QdrantFilter where
  must : List FilterCondition
deriving DecidableEq

/-- The payload `upsertPoints` sends for a chunk point: the application
payload fields plus the `original_id` the client adds (timestamps
omitted). -/
structure StoredPayload where
  document_id : Nat
  document_type : String
  chunk_index : Nat
  chunk_text : String
  version : String
  original_id : String
deriving DecidableEq

/-- The application-level payload `DocumentProcessorService` builds for
a chunk point (before the client adds `original_id`). -/
structure AppPayload where
  document_id : Nat
  document_type : String
  chunk_index : Nat
  chunk_text : String
  version : String
deriving DecidableEq

/-- An application-level point passed to `upsertPoints`. -/
structure AppPoint where
  id : String
  vector : List ℚ
  payload : AppPayload
deriving DecidableEq

/-- A point as stored in Qdrant: the client-side UUID (derived in the
source from a hash of the id plus `Math.random`, modelled by the
environment's `uuidOf`), the vector and the payload. -/
structure StoredPoint where
  qid : String
  vector : List ℚ
  payload : StoredPayload
deriving DecidableEq

/-- Payload field lookup by the string keys this service stores. -/
def payloadGet (p : StoredPayload) (key : String) : Option JVal :=
  if key == "document_id" then some (.num p.document_id)
  else if key == "document_type" then some (.str p.document_type)
  else if key == "chunk_index" then some (.num p.chunk_index)
  else if key == "chunk_text" then some (.str p.chunk_text)
  else if key == "version" then some (.str p.version)
  else if key == "original_id" then some (.str p.original_id)
  else none

/-- Qdrant `match` condition semantics: the payload value under the key
equals the condition's value. -/
def matchesCondition (p : StoredPayload) (c : FilterCondition) : Bool :=
  payloadGet p c.key == some c.value

/-- Qdrant filter semantics: every `must` condition matches. -/
def matchesFilter (p : StoredPayload) (f : QdrantFilter) : Bool :=
  f.must.all (fun c => matchesCondition p c)

/-- `VectorDbService.convertFilterForQdrant`: rewrites every `must`
condition on the key `document_id` to the key `original_id`, keeping the
match value. -/
def convertFilterForQdrant (f : QdrantFilter) : QdrantFilter :=
  { must := f.must.map (fun c =>
      if c.key == "document_id" then { key := "original_id", value := c.value } else c) }

/-- `VectorDbService.upsertPoints`: maps each application point to a
stored point whose payload is the application payload plus
`original_id := point.id`, under a fresh client-generated UUID
(`generateUUID` draws on `Math.random`, so repeated upserts never
collide with existing ids; the write is modelled as an append). -/
def upsertPoints (store : List StoredPoint) (points : List AppPoint)
    (uuidOf : String → String) : List StoredPoint :=
  store ++ points.map (fun p =>
    ⟨uuidOf p.id, p.vector,
     ⟨p.payload.document_id, p.payload.document_type, p.payload.chunk_index,
      p.payload.chunk_text, p.payload.version, p.id⟩⟩)

/-- `VectorDbService.deletePoints(filter)`: converts the filter with
`convertFilterForQdrant` and removes every stored point matching the
converted filter. -/
def deletePoints (store : List StoredPoint) (filter : QdrantFilter) : List StoredPoint :=
  store.filter (fun pt => !(matchesFilter pt.payload (convertFilterForQdrant filter)))

/-- The delete filter `updateDocument` and `deleteDocument` build:
`{ must: [{ key: 'document_id', match: { value: id } }] }`. -/
def docIdFilter (id : Nat) : QdrantFilter :=
  ⟨[⟨"document_id", .num id⟩]⟩

/-! ## Document ingestion (src/services/document-processor.service.ts) -/

/-- A row of the `documents` table (ground-truth reference document). -/
structure DocumentRow where
  id : Nat
  type : String
  version : String
  storage_uri : String
  content_hash : String
deriving DecidableEq

/-- A row of the `embeddings` table (chunk reference), with its metadata
fields flattened. -/
structure EmbeddingRow where
  docId : Nat
  chunk_id : String
  vector_ref : String
  chunk_index : Nat
  chunk_text : String
  document_type : String
  version : String
deriving DecidableEq

/-- The stores the ingestion pipeline touches: the relational
`documents` and `embeddings` tables and the Qdrant collection. -/
structure DocState where
  documents : List DocumentRow
  embeddingRows : List EmbeddingRow
  vectorPoints : List StoredPoint
deriving DecidableEq

/-- Oracles for the ingestion pipeline's collaborators: the content
hash of the file at a path (fs + crypto), pdf text extraction, the
OpenAI batch-embedding call, the database id assigned to a newly saved
document row, the client-side UUID derivation, and `Math.sin` (floating
point, modelled as an opaque rational-valued function) used by the
legacy deterministic fallback embedding. -/
structure DocEnv where
  contentHash : String → String
  readPdfText : String → Except JSError String
  openaiEmbeddings : List String → Except JSError (List (List ℚ))
  freshId : Nat
  uuidOf : String → String
  sinOracle : Int → ℚ

/-- Outcome of one `processDocument` call: the returned document or
raised error, the resulting stores, the number of provider
embedding-generation calls made, and whether the relational transaction
was committed. -/
structure DocResult where
  result : Except JSError DocumentRow
  state : DocState
  embedCalls : Nat
  committed : Bool

/-- `DocumentProcessorService.findExistingDocument(type, hash)`:
first document row with the same `(type, content_hash)`.  (The source's
catch-and-return-null around this read models lookup failures; reads
are modelled as reliable.) -/
def findExistingDocument (docs : List DocumentRow) (documentType contentHash : String) :
    Option DocumentRow :=
  docs.find? (fun d => d.type == documentType && d.content_hash == contentHash)

/-- The catch block of `processDocument` rethrows
`Document processing failed: ${error.message}`. -/
def wrapDocErrMsg (m : String) : JSError :=
  ⟨none, none, some ("Document processing failed: " ++ m)⟩

/-- Wrapper applied to a caught error object. -/
def wrapDocErr (e : JSError) : JSError :=
  wrapDocErrMsg (jsErrMessage e)

/-- The catch block of `updateDocument` rethrows
`Document update failed: ${error.message}`. -/
def wrapUpdErrMsg (m : String) : JSError :=
  ⟨none, none, some ("Document update failed: " ++ m)⟩

/-- Wrapper applied to a caught error object. -/
def wrapUpdErr (e : JSError) : JSError :=
  wrapUpdErrMsg (jsErrMessage e)

/-- The point array `processDocument`/`updateDocument` build: one point
per embedding, id `` `${document.id}_${index}` ``, payload carrying the
document id and type, chunk index and text, and version (the
`created_at` timestamp is omitted). -/
def mkPoints (docId : Nat) (documentType version : String) (chunks : List String)
    (embeddings : List (List ℚ)) : List AppPoint :=
  embeddings.mapIdx (fun index vec =>
    ⟨toString docId ++ "_" ++ toString index, vec,
     ⟨docId, documentType, index, chunks.getD index "", version⟩⟩)

/-- The `Embedding` reference rows built alongside the points. -/
def mkEmbeddingRefs (docId : Nat) (documentType version : String) (chunks : List String)
    (embeddings : List (List ℚ)) : List EmbeddingRow :=
  embeddings.mapIdx (fun index _ =>
    ⟨docId, toString docId ++ "_" ++ toString index,
     toString docId ++ "_" ++ toString index,
     index, chunks.getD index "", documentType, version⟩)

/-- JavaScript `ToInt32` (the effect of `| 0`, `&`, `<<` operands). -/
def toInt32 (n : Int) : Int :=
  ((n + 2 ^ 31) % 2 ^ 32) - 2 ^ 31

/-- JavaScript `%` (remainder with the dividend's sign) for a positive
divisor. -/
def jsRem (a b : Int) : Int :=
  if 0 ≤ a then ((a.natAbs % b.natAbs : Nat) : Int)
  else -((a.natAbs % b.natAbs : Nat) : Int)

/-- The 32-bit string hash loop of `generateDeterministicEmbedding`
(and `simpleHash`): `hash = ToInt32(ToInt32(hash << 5) - hash + code)`
per character (`charCodeAt` modelled by the code point; identical on
the BMP). -/
def jsHash32 (s : String) : Int :=
  s.data.foldl (fun h c => toInt32 (toInt32 (h * 32) - h + c.toNat)) 0

/-- Legacy `DocumentProcessorService.generateDeterministicEmbedding`:
hashes the chunk text, offsets by `index * 1000`, and produces 1536
pseudo-random components `((sin(seed) + 1) / 2) * 2 - 1` from seeds
`(hash + i) % 2147483647`; `Math.sin` is the `sinOracle`. -/
def generateDeterministicEmbedding (sinOracle : Int → ℚ) (text : String)
    (index : Nat) : List ℚ :=
  let hash := jsHash32 text + 1000 * index
  (List.range 1536).map (fun i =>
    (sinOracle (jsRem (hash + i) 2147483647) + 1) / 2 * 2 - 1)

/-- Dependency-injected `DocumentProcessorService.generateEmbeddings`:
calls the provider and propagates any failure ("throw error if
fails"). -/
def generateEmbeddings (env : DocEnv) (chunks : List String) :
    Except JSError (List (List ℚ)) :=
  env.openaiEmbeddings chunks

/-- Legacy `DocumentProcessorService.generateEmbeddings` (first variant
in document-processor.service.ts): calls the provider, and on any
failure logs a warning and falls back to
`generateDeterministicEmbedding` per chunk — it never raises. -/
def generateEmbeddingsLegacy (env : DocEnv) (chunks : List String) : List (List ℚ) :=
  match env.openaiEmbeddings chunks with
  | .ok es => es
  | .error _ =>
    chunks.mapIdx (fun index chunk =>
      generateDeterministicEmbedding env.sinOracle chunk index)

/-- `DocumentProcessorService.processDocument(filePath, type, version)`
parameterized by the embedding step (the two source variants differ
only there): hash the bytes; short-circuit on an existing
`(type, hash)` document with a rollback (nothing staged, nothing
committed, no embedding call); otherwise parse, reject empty text, save
the document row inside the transaction (the `RetryUtil` wrapper around
this reliable store write succeeds on its first attempt), chunk, embed,
upsert the chunk points into the vector store, stage the chunk
reference rows and commit.  On any error the transaction rolls back:
no staged relational write survives, and since the vector upsert
follows the embedding step, a pre-upsert failure leaves every store
untouched. -/
def processDocumentWith (embed : List String → Except JSError (List (List ℚ)))
    (env : DocEnv) (filePath documentType version : String) (st : DocState) : DocResult :=
  let contentHash := env.contentHash filePath
  match findExistingDocument st.documents documentType contentHash with
  | some existing => ⟨.ok existing, st, 0, false⟩
  | none =>
    match env.readPdfText filePath with
    | .error e => ⟨.error (wrapDocErr e), st, 0, false⟩
    | .ok text =>
      if (jsTrim text).data.isEmpty then
        ⟨.error (wrapDocErrMsg "PDF contains no extractable text"), st, 0, false⟩
      else
        let document : DocumentRow := ⟨env.freshId, documentType, version, filePath, contentHash⟩
        let chunks := chunkText text 512 64
        match embed chunks with
        | .error e => ⟨.error (wrapDocErr e), st, 1, false⟩
        | .ok embeddings =>
          ⟨.ok document,
           ⟨st.documents ++ [document],
            st.embeddingRows ++ mkEmbeddingRefs document.id documentType version chunks embeddings,
            upsertPoints st.vectorPoints
              (mkPoints document.id documentType version chunks embeddings) env.uuidOf⟩,
           1, true⟩

/-- The dependency-injected `processDocument` (error-propagating
embeddings). -/
def processDocument (env : DocEnv) (filePath documentType version : String)
    (st : DocState) : DocResult :=
  processDocumentWith (fun chunks => generateEmbeddings env chunks)
    env filePath documentType version st

/-- The legacy `processDocument` (fallback embeddings; the embedding
step never raises). -/
def processDocumentLegacy (env : DocEnv) (filePath documentType version : String)
    (st : DocState) : DocResult :=
  processDocumentWith (fun chunks => .ok (generateEmbeddingsLegacy env chunks))
    env filePath documentType version st

/-- `documentRepository`-style save for the documents table: replace the
row with the same id. -/
def saveDocRow : List DocumentRow → DocumentRow → List DocumentRow
  | [], d => [d]
  | r :: rs, d => if r.id == d.id then d :: rs else r :: saveDocRow rs d

/-- `DocumentProcessorService.updateDocument(existing, filePath,
newVersion)`: re-extract text, update the document row's
version/location/hash (staged in the transaction), delete the old
points from the vector store (immediate — the vector store is not part
of the relational transaction), delete the old chunk reference rows
(staged), re-chunk, re-embed, upsert the new points (immediate), stage
the new reference rows, commit.  On a failure after the vector delete
(the embedding call), the relational transaction rolls back but the
vector-store delete is not undone. -/
def updateDocument (env : DocEnv) (existing : DocumentRow)
    (filePath newVersion : String) (st : DocState) :
    Except JSError DocumentRow × DocState :=
  let contentHash := env.contentHash filePath
  match env.readPdfText filePath with
  | .error e => (.error (wrapUpdErr e), st)
  | .ok text =>
    if (jsTrim text).data.isEmpty then
      (.error (wrapUpdErrMsg "PDF contains no extractable text"), st)
    else
      let updatedDocument : DocumentRow :=
        ⟨existing.id, existing.type, newVersion, filePath, contentHash⟩
      let vp1 := deletePoints st.vectorPoints (docIdFilter existing.id)
      let chunks := chunkText text 512 64
      match generateEmbeddings env chunks with
      | .error e => (.error (wrapUpdErr e), { st with vectorPoints := vp1 })
      | .ok embeddings =>
        (.ok updatedDocument,
         ⟨saveDocRow st.documents updatedDocument,
          (st.embeddingRows.filter (fun r => !(r.docId == existing.id)))
            ++ mkEmbeddingRefs updatedDocument.id updatedDocument.type newVersion
                chunks embeddings,
          upsertPoints vp1
            (mkPoints updatedDocument.id updatedDocument.type newVersion chunks embeddings)
            env.uuidOf⟩)

/-- Searching an appended list skips a prefix with no match. -/
theorem find?_append_of_none {α : Type} {l₁ : List α} {p : α → Bool}
    (h : l₁.find? p = none) (l₂ : List α) :
    (l₁ ++ l₂).find? p = l₂.find? p := by
  induction l₁ with
  | nil => rfl
  | cons a l ih =>
    cases ha : p a with
    | true => simp [List.find?, ha] at h
    | false =>
      simp only [List.find?, ha] at h
      simp only [List.cons_append, List.find?, ha]
      exact ih h

/-- Dedup helper over either `generateEmbeddings` variant: when no
document with the `(type, hash)` pair exists and a first
`processDocument` call succeeds, the second call on the resulting state
short-circuits on the `(type, hash)` lookup and returns the first
call's record with the state unchanged, zero embedding calls and no
commit, and the resulting store holds exactly one row with that
`(type, hash)` pair. -/
theorem processDocumentWith_dedup
    (embed : List String → Except JSError (List (List ℚ))) (env : DocEnv)
    (filePath documentType version : String) (st : DocState) (d : DocumentRow)
    (h0 : findExistingDocument st.documents documentType (env.contentHash filePath) = none)
    (h1 : (processDocumentWith embed env filePath documentType version st).result = .ok d) :
    processDocumentWith embed env filePath documentType version
        (processDocumentWith embed env filePath documentType version st).state
      = ⟨.ok d, (processDocumentWith embed env filePath documentType version st).state, 0, false⟩
    ∧ ((processDocumentWith embed env filePath documentType version st).state.documents.countP
        (fun x => x.type == documentType && x.content_hash == env.contentHash filePath)) = 1 := by
  cases hp : env.readPdfText filePath with
  | error e =>
    simp only [processDocumentWith, h0, hp] at h1
    exact absurd h1 (by simp)
  | ok text =>
    by_cases htrim : (jsTrim text).data.isEmpty
    · simp only [processDocumentWith, h0, hp, htrim, if_true] at h1
      exact absurd h1 (by simp)
    · cases hemb : embed (chunkText text 512 64) with
      | error e =>
        simp only [processDocumentWith, h0, hp, htrim, Bool.false_eq_true, if_false, hemb] at h1
        exact absurd h1 (by simp)
      | ok embeddings =>
        have hres : processDocumentWith embed env filePath documentType version st
            = ⟨.ok ⟨env.freshId, documentType, version, filePath, env.contentHash filePath⟩,
               ⟨st.documents
                  ++ [⟨env.freshId, documentType, version, filePath, env.contentHash filePath⟩],
                st.embeddingRows
                  ++ mkEmbeddingRefs env.freshId documentType version
                      (chunkText text 512 64) embeddings,
                upsertPoints st.vectorPoints
                  (mkPoints env.freshId documentType version (chunkText text 512 64) embeddings)
                  env.uuidOf⟩,
               1, true⟩ := by
          simp only [processDocumentWith, h0, hp, htrim, Bool.false_eq_true, if_false, hemb]
        have hd : d = ⟨env.freshId, documentType, version, filePath, env.contentHash filePath⟩ := by
          rw [hres] at h1
          exact (Except.ok.inj h1).symm
        have hfind2 : findExistingDocument
            (st.documents
              ++ [⟨env.freshId, documentType, version, filePath, env.contentHash filePath⟩])
            documentType (env.contentHash filePath)
            = some ⟨env.freshId, documentType, version, filePath, env.contentHash filePath⟩ := by
          unfold findExistingDocument at h0 ⊢
          rw [find?_append_of_none h0]
          simp [List.find?]
        constructor
        · rw [hres]
          simp only [processDocumentWith, hfind2]
          rw [hd]
        · rw [hres]
          have hc0 : st.documents.countP
              (fun x => x.type == documentType && x.content_hash == env.contentHash filePath) = 0 := by
            unfold findExistingDocument at h0
            rw [List.find?_eq_none] at h0
            exact List.countP_eq_zero.mpr h0
          simp [List.countP_append, hc0, List.countP_cons]

/-- C8: ingestion is idempotent on content for the dependency-injected
`processDocument` — ingesting the same file bytes twice under the same
document type yields exactly one document row with that
`(type, content hash)` pair; the second call short-circuits on the
lookup, returns the first call's record unchanged, leaves every store
unchanged, makes no embedding call and commits no transaction. -/
theorem processDocument_dedup_idempotent (env : DocEnv)
    (filePath documentType version : String) (st : DocState) (d : DocumentRow)
    (h0 : findExistingDocument st.documents documentType (env.contentHash filePath) = none)
    (h1 : (processDocument env filePath documentType version st).result = .ok d) :
    processDocument env filePath documentType version
        (processDocument env filePath documentType version st).state
      = ⟨.ok d, (processDocument env filePath documentType version st).state, 0, false⟩
    ∧ ((processDocument env filePath documentType version st).state.documents.countP
        (fun x => x.type == documentType && x.content_hash == env.contentHash filePath)) = 1 :=
  processDocumentWith_dedup (fun chunks => generateEmbeddings env chunks) env
    filePath documentType version st d h0 h1

/-- A sample ingestion environment in which every collaborator
succeeds. -/
def sampleDocEnv : DocEnv :=
  { contentHash := fun _ => "h1"
    readPdfText := fun _ => .ok "hello world"
    openaiEmbeddings := fun chunks => .ok (chunks.map (fun _ => [1, 0]))
    freshId := 1
    uuidOf := fun s => s
    sinOracle := fun _ => 0 }

/-- Witness for C8: ingesting a file into an empty store and then
ingesting the same bytes again returns the first record unchanged with
no state change, no embedding call and no commit, and exactly one
matching document row exists. -/
theorem processDocument_dedup_idempotent_witness :
    (findExistingDocument (⟨[], [], []⟩ : DocState).documents "job_description"
        (sampleDocEnv.contentHash "jd.pdf") = none
     ∧ (processDocument sampleDocEnv "jd.pdf" "job_description" "1.0" ⟨[], [], []⟩).result
         = .ok ⟨1, "job_description", "1.0", "jd.pdf", "h1"⟩)
    ∧ (processDocument sampleDocEnv "jd.pdf" "job_description" "1.0"
          (processDocument sampleDocEnv "jd.pdf" "job_description" "1.0" ⟨[], [], []⟩).state
        = ⟨.ok ⟨1, "job_description", "1.0", "jd.pdf", "h1"⟩,
           (processDocument sampleDocEnv "jd.pdf" "job_description" "1.0" ⟨[], [], []⟩).state,
           0, false⟩
       ∧ ((processDocument sampleDocEnv "jd.pdf" "job_description" "1.0"
            ⟨[], [], []⟩).state.documents.countP
           (fun x => x.type == "job_description"
             && x.content_hash == sampleDocEnv.contentHash "jd.pdf")) = 1) :=
  ⟨⟨rfl, rfl⟩,
    processDocument_dedup_idempotent sampleDocEnv "jd.pdf" "job_description" "1.0"
      ⟨[], [], []⟩ ⟨1, "job_description", "1.0", "jd.pdf", "h1"⟩ rfl rfl⟩

/-- C5 (amended): in the dependency-injected document processor, when
the provider embedding call fails for the chunks of a new document,
`processDocument` raises the wrapped error and persists nothing — the
transaction rolls back, every store is left as before, and nothing is
committed. -/
theorem processDocument_embed_failure_raises (env : DocEnv)
    (filePath documentType version : String) (st : DocState) (text : String)
    (e : JSError)
    (h0 : findExistingDocument st.documents documentType (env.contentHash filePath) = none)
    (hp : env.readPdfText filePath = .ok text)
    (ht : (jsTrim text).data.isEmpty = false)
    (he : env.openaiEmbeddings (chunkText text 512 64) = .error e) :
    processDocument env filePath documentType version st
      = ⟨.error (wrapDocErr e), st, 1, false⟩ := by
  simp only [processDocument, processDocumentWith, generateEmbeddings, h0, hp, ht,
    Bool.false_eq_true, if_false, he]

/-- An ingestion environment whose provider embedding call always
fails with an HTTP 500 error. -/
def failingEmbedEnv : DocEnv :=
  { contentHash := fun _ => "h1"
    readPdfText := fun _ => .ok "hello"
    openaiEmbeddings := fun _ => .error ⟨none, some 500, some "provider down"⟩
    freshId := 1
    uuidOf := fun s => s
    sinOracle := fun _ => 0 }

/-- Counterexample for C5: with the provider failing, the legacy
ingestion path completes successfully and commits, persisting one
deterministically fabricated embedding vector in place of the provider
embeddings, instead of raising. -/
theorem generateEmbeddingsLegacy_fabricates :
    failingEmbedEnv.openaiEmbeddings (chunkText "hello" 512 64)
      = .error ⟨none, some 500, some "provider down"⟩
    ∧ (processDocumentLegacy failingEmbedEnv "jd.pdf" "job_description" "1.0"
        ⟨[], [], []⟩).result = .ok ⟨1, "job_description", "1.0", "jd.pdf", "h1"⟩
    ∧ (processDocumentLegacy failingEmbedEnv "jd.pdf" "job_description" "1.0"
        ⟨[], [], []⟩).committed = true
    ∧ (processDocumentLegacy failingEmbedEnv "jd.pdf" "job_description" "1.0"
        ⟨[], [], []⟩).state.vectorPoints.length = 1
    ∧ generateEmbeddingsLegacy failingEmbedEnv ["hello"]
        = [generateDeterministicEmbedding failingEmbedEnv.sinOracle "hello" 0] :=
  ⟨rfl, rfl, rfl, rfl, rfl⟩

/-- Witness for C5's amended theorem: in the failing-provider
environment the dependency-injected `processDocument` raises the
wrapped provider error and leaves the empty store untouched. -/
theorem processDocument_embed_failure_raises_witness :
    (findExistingDocument (⟨[], [], []⟩ : DocState).documents "job_description"
        (failingEmbedEnv.contentHash "jd.pdf") = none
     ∧ failingEmbedEnv.readPdfText "jd.pdf" = .ok "hello"
     ∧ (jsTrim "hello").data.isEmpty = false
     ∧ failingEmbedEnv.openaiEmbeddings (chunkText "hello" 512 64)
         = .error ⟨none, some 500, some "provider down"⟩)
    ∧ processDocument failingEmbedEnv "jd.pdf" "job_description" "1.0" ⟨[], [], []⟩
        = ⟨.error (wrapDocErr ⟨none, some 500, some "provider down"⟩), ⟨[], [], []⟩, 1, false⟩ :=
  ⟨⟨rfl, rfl, rfl, rfl⟩,
    processDocument_embed_failure_raises failingEmbedEnv "jd.pdf" "job_description" "1.0"
      ⟨[], [], []⟩ "hello" ⟨none, some 500, some "provider down"⟩ rfl rfl rfl rfl⟩

/-- An update environment for a stale-index scenario. -/
def staleDocEnv : DocEnv :=
  { contentHash := fun _ => "h2"
    readPdfText := fun _ => .ok "hello"
    openaiEmbeddings := fun chunks => .ok (chunks.map (fun _ => [1]))
    freshId := 9
    uuidOf := fun s => s
    sinOracle := fun _ => 0 }

/-- The previously ingested document that is being updated. -/
def oldDoc : DocumentRow := ⟨5, "job_description", "1.0", "jd.pdf", "h1"⟩

/-- The chunk point `processDocument` upserted for `oldDoc`: payload
`document_id = 5` and `original_id = "5_0"`. -/
def oldPoint : StoredPoint := ⟨"5_0", [1], ⟨5, "job_description", 0, "hello", "1.0", "5_0"⟩⟩

/-- The stores after the original ingestion of `oldDoc`. -/
def staleState : DocState :=
  ⟨[oldDoc], [⟨5, "5_0", "5_0", 0, "hello", "job_description", "1.0"⟩], [oldPoint]⟩

/-- C10 (code evaluated at the failing input): the vector-store delete
`updateDocument` issues never removes anything — for every store and
document id, `deletePoints` with the `document_id` filter is the
identity, because `convertFilterForQdrant` rewrites the key to
`original_id`, whose stored values are chunk ids like `"5_0"` (strings)
and never equal the numeric document id.  Concretely: updating `oldDoc`
succeeds, yet its old chunk point is still in the index afterwards,
although the point's payload does match the unconverted `document_id`
condition (and does not match the rewritten one). -/
theorem updateDocument_index_delete_noop :
    (∀ (store : List StoredPoint) (id : Nat), deletePoints store (docIdFilter id) = store)
    ∧ (updateDocument staleDocEnv oldDoc "jd-v2.pdf" "2.0" staleState).1
        = .ok ⟨5, "job_description", "2.0", "jd-v2.pdf", "h2"⟩
    ∧ oldPoint ∈ (updateDocument staleDocEnv oldDoc "jd-v2.pdf" "2.0" staleState).2.vectorPoints
    ∧ matchesCondition oldPoint.payload ⟨"document_id", .num 5⟩ = true
    ∧ matchesCondition oldPoint.payload ⟨"original_id", .num 5⟩ = false := by
  refine ⟨?_, rfl, ?_, rfl, rfl⟩
  · intro store id
    unfold deletePoints
    apply List.filter_eq_self.mpr
    intro pt _
    rfl
  · decide
